import Mathlib

/-!
Shallow embedding of the library management system in src/Library.py
(with the store schema from src/Start.py).

The store is modelled as three lists of rows mirroring the three MySQL
tables created by Start.py: users, books, issuedbooks.  SQL rows become
structures, SELECT ... fetchone becomes List.find?, UPDATE ... WHERE
becomes List.map of a row-update function, DELETE ... WHERE becomes
List.filter, INSERT becomes list append.  Dates are modelled as day
numbers (Nat), matching the DATE columns and the day-difference
arithmetic of calculate_fine.  Interactive inputs collected by input()
and the validate_... helpers become explicit parameters.

Python truthiness matters in two places of the source: remove_book tests
the fetched user_id column with if issued_result[0], and return_book
tests it with if not issued_result[0].  A NULL column and the integer 0
are both falsy in Python, so these tests are modelled by pyTruthy.

The schema of Start.py declares a foreign key issuedbooks.book_id
referencing books(id); with the default RESTRICT action, DELETE FROM
books fails at the store while an issuedbooks row references the book.
removeBook models that deterministic store rejection.  The UNIQUE
constraint on users.email likewise makes the registration INSERT inside
lend_book fail deterministically when the email is already taken; the
source then crashes on fetchone()[0] applied to None, modelled by the
crash outcome.
-/

namespace LMS

/-- Row of the books table of Start.py. -/
structure Book where
  id : Int
  title : String
  author : String
  genre : String
  available : Bool
  user_id : Option Int
deriving DecidableEq

/-- Row of the users table of Start.py. -/
structure User where
  id : Int
  name : String
  email : String
  issued_book_count : Int
deriving DecidableEq

/-- Row of the issuedbooks table of Start.py (the autoincrement sno
column carries no information used by the code and is omitted). -/
structure Loan where
  book_id : Int
  issued_book_title : String
  user_id : Int
  issue_date : Nat
  due_date : Nat
deriving DecidableEq

/-- The persistent store: the three tables. -/
structure LibraryState where
  users : List User
  books : List Book
  issuedbooks : List Loan
deriving DecidableEq

/-- Python truthiness of a nullable integer column: None and 0 are falsy. -/
def pyTruthy : Option Int → Bool
  | none => false
  | some n => n != 0

/-- SELECT * FROM books WHERE id = bid, fetchone. -/
def findBook (s : LibraryState) (bid : Int) : Option Book :=
  s.books.find? (fun b => b.id == bid)

/-- SELECT * FROM users WHERE id = uid, fetchone. -/
def findUser (s : LibraryState) (uid : Int) : Option User :=
  s.users.find? (fun u => u.id == uid)

/-- SELECT * FROM issuedbooks WHERE book_id = bid (all rows). -/
def loansFor (s : LibraryState) (bid : Int) : List Loan :=
  s.issuedbooks.filter (fun l => l.book_id == bid)

/-- SELECT * FROM issuedbooks WHERE user_id = uid (all rows). -/
def loansOfUser (s : LibraryState) (uid : Int) : List Loan :=
  s.issuedbooks.filter (fun l => l.user_id == uid)

/-- Character class [a-zA-Z0-9_.+-] of the email pattern in validate_email. -/
def isEmailLocalChar (c : Char) : Bool :=
  c.isAlphanum || c == '_' || c == '.' || c == '+' || c == '-'

/-- Character class [a-zA-Z0-9-] of the email pattern in validate_email. -/
def isEmailDomainChar (c : Char) : Bool :=
  c.isAlphanum || c == '-'

/-- Character class [a-zA-Z0-9-.] of the email pattern in validate_email. -/
def isEmailTldChar (c : Char) : Bool :=
  c.isAlphanum || c == '-' || c == '.'

/-- The anchored regular expression of validate_email,
pattern r"(^[a-zA-Z0-9_.+-]+@[a-zA-Z0-9-]+\.[a-zA-Z0-9-.]+$)",
evaluated on newline-free strings as produced by input().  Because the
at sign and the dot separator are excluded from the classes preceding
them, greedy matching with backtracking accepts exactly the splits
computed here: a nonempty local part up to the first at sign, a nonempty
domain label up to the first following dot, and a nonempty remainder. -/
def emailValid (s : String) : Bool :=
  let cs := s.toList
  let lp := cs.takeWhile isEmailLocalChar
  match cs.dropWhile isEmailLocalChar with
  | '@' :: dom =>
      let dp := dom.takeWhile isEmailDomainChar
      (!lp.isEmpty) && (!dp.isEmpty) &&
      (match dom.dropWhile isEmailDomainChar with
       | '.' :: tld => (!tld.isEmpty) && tld.all isEmailTldChar
       | _ => false)
  | _ => false

/-- calculate_fine of Library.py: overdue days times the fixed rate 5.
The day difference is taken on dates, so both arguments are day numbers;
the result is an Int exactly like the Python expression, with no
clamping at zero. -/
def calculate_fine (today : Nat) (due_date : Nat) : Int :=
  ((today : Int) - (due_date : Int)) * 5

/-- Outcome of add_book. -/
inductive AddResult where
  | duplicateID
  | added
deriving DecidableEq

/-- Outcome of remove_book.  storeError is the path where the DELETE
statement is rejected by the store (foreign-key restriction) and
execute_query returns None after rolling the statement back. -/
inductive RemoveResult where
  | notFound
  | bookOnLoan (holder : Int)
  | storeError
  | removed
deriving DecidableEq

/-- Outcome of lend_book.  crash is the unhandled TypeError raised by
fetchone()[0] when the registration INSERT was rejected (duplicate
email) and the subsequent count lookup returns no row. -/
inductive LendResult where
  | limitExceeded
  | bookUnavailable
  | crash
  | lent
deriving DecidableEq

/-- Outcome of return_book.  A successful return carries the fine that
is printed, or none when the book is not overdue and no fine message is
shown. -/
inductive ReturnResult where
  | notFound
  | notOnLoan
  | loanMismatch
  | returned (fine : Option Int)
deriving DecidableEq

/-- add_book of Library.py, lines 135 to 159: reject a duplicate id,
otherwise INSERT INTO books; the columns available and user_id take
their schema defaults TRUE and NULL. -/
def addBook (s : LibraryState) (bid : Int) (title author genre : String) :
    AddResult × LibraryState :=
  match findBook s bid with
  | some _ => (.duplicateID, s)
  | none =>
      (.added, { s with books := s.books ++ [⟨bid, title, author, genre, true, none⟩] })

/-- remove_book of Library.py, lines 163 to 193.  The first query fetches
user_id; a truthy holder rejects with the issued-to message reporting
that holder.  A missing book is reported next.  Otherwise DELETE FROM
books runs; the store rejects it while any issuedbooks row still
references the book (foreign key of Start.py), which execute_query
surfaces as a failed statement with no state change. -/
def removeBook (s : LibraryState) (bid : Int) : RemoveResult × LibraryState :=
  match findBook s bid with
  | none => (.notFound, s)
  | some b =>
      match b.user_id with
      | some h =>
          if h != 0 then (.bookOnLoan h, s)
          else if (loansFor s bid).isEmpty then
            (.removed, { s with books := s.books.filter (fun bk => !(bk.id == bid)) })
          else (.storeError, s)
      | none =>
          if (loansFor s bid).isEmpty then
            (.removed, { s with books := s.books.filter (fun bk => !(bk.id == bid)) })
          else (.storeError, s)

/-- The user-registration step at the top of lend_book, lines 209 to 219:
when no row with the given id exists, INSERT INTO users with count 0.
The INSERT is rejected by the store when the UNIQUE email constraint of
Start.py is violated; that path returns none and the caller crashes. -/
def register (s : LibraryState) (uid : Int) (nm em : String) :
    Option LibraryState :=
  match findUser s uid with
  | some _ => some s
  | none =>
      if s.users.any (fun u => u.email == em) then none
      else some { s with users := s.users ++ [⟨uid, nm, em, 0⟩] }

/-- UPDATE books SET available = 0, user_id = uid WHERE id = bid, applied
to one row. -/
def checkoutBook (bid uid : Int) (bk : Book) : Book :=
  if bk.id = bid then { bk with available := false, user_id := some uid } else bk

/-- UPDATE users SET issued_book_count = issued_book_count + 1 WHERE
id = uid, applied to one row. -/
def incrUser (uid : Int) (x : User) : User :=
  if x.id = uid then { x with issued_book_count := x.issued_book_count + 1 } else x

/-- UPDATE books SET available = 1, user_id = NULL WHERE id = bid,
applied to one row. -/
def checkinBook (bid : Int) (bk : Book) : Book :=
  if bk.id = bid then { bk with available := true, user_id := none } else bk

/-- UPDATE users SET issued_book_count = issued_book_count - 1 WHERE
id = uid, applied to one row. -/
def decrUser (uid : Int) (x : User) : User :=
  if x.id = uid then { x with issued_book_count := x.issued_book_count - 1 } else x

/-- lend_book of Library.py, lines 197 to 257, with the three mutation
statements guarded by flags modelling the try/except of execute_query:
each statement runs in its own transaction that execute_query commits on
success, and on a store error rolls back only that statement and returns
None, which lend_book ignores and continues.  A false flag is a store
error on the corresponding statement.  The registration step, the
capacity check (count at least 3) and the availability check
(SELECT ... WHERE id = bid AND available = 1) come first, in the order
of the source. -/
def lendBookCore (s : LibraryState) (bid uid : Int) (nm em : String)
    (now : Nat) (f1 f2 f3 : Bool) : LendResult × LibraryState :=
  match register s uid nm em with
  | none => (.crash, s)
  | some s1 =>
      match findUser s1 uid with
      | none => (.crash, s1)
      | some u =>
          if 3 ≤ u.issued_book_count then (.limitExceeded, s1)
          else
            match s1.books.find? (fun b => b.id == bid && b.available) with
            | none => (.bookUnavailable, s1)
            | some b =>
                let s2 := if f1 then
                  { s1 with books := s1.books.map (checkoutBook bid uid) } else s1
                let s3 := if f2 then
                  { s2 with issuedbooks :=
                      s2.issuedbooks ++ [⟨bid, b.title, uid, now, now + 15⟩] } else s2
                let s4 := if f3 then
                  { s3 with users := s3.users.map (incrUser uid) } else s3
                (.lent, s4)

/-- lend_book in a run where no store error occurs on the three mutation
statements. -/
def lendBook (s : LibraryState) (bid uid : Int) (nm em : String)
    (now : Nat) : LendResult × LibraryState :=
  lendBookCore s bid uid nm em now true true true

/-- The count decrement of return_book via the correlated subquery
UPDATE users SET issued_book_count = issued_book_count - 1 WHERE id =
(SELECT user_id FROM issuedbooks WHERE book_id = bid): with exactly one
matching loan row the subquery yields that user id; with no row the
WHERE clause matches nothing, and with several rows the statement fails
with a subquery error; in the latter two cases no count changes. -/
def decrementBySubquery (s1 : LibraryState) (bid : Int) : LibraryState :=
  match loansFor s1 bid with
  | [l1] => { s1 with users := s1.users.map (decrUser l1.user_id) }
  | _ => s1

/-- return_book of Library.py, lines 261 to 316: existence check, Python
truthiness check of the user_id column, ownership check on issuedbooks,
fine message only when strictly past due, then the three mutation
statements.  The final DELETE removes every issuedbooks row of the
book. -/
def returnBook (s : LibraryState) (bid uid : Int) (today : Nat) :
    ReturnResult × LibraryState :=
  match findBook s bid with
  | none => (.notFound, s)
  | some b =>
      if pyTruthy b.user_id then
        match s.issuedbooks.find? (fun l => l.book_id == bid && l.user_id == uid) with
        | none => (.loanMismatch, s)
        | some l0 =>
            let fine : Option Int :=
              if l0.due_date < today then some (calculate_fine today l0.due_date)
              else none
            let s1 := { s with books := s.books.map (checkinBook bid) }
            let s2 := decrementBySubquery s1 bid
            let s3 := { s2 with issuedbooks :=
                s2.issuedbooks.filter (fun l => !(l.book_id == bid)) }
            (.returned fine, s3)
      else (.notOnLoan, s)

/-- One menu action with all its interactive inputs. -/
inductive Op where
  | add (bid : Int) (title author genre : String)
  | remove (bid : Int)
  | lend (bid uid : Int) (nm em : String) (now : Nat)
  | ret (bid uid : Int) (today : Nat)

/-- The state transition of one menu action (store errors on the lend
mutation statements absent). -/
def applyOp (s : LibraryState) : Op → LibraryState
  | .add bid t a g => (addBook s bid t a g).2
  | .remove bid => (removeBook s bid).2
  | .lend bid uid nm em now => (lendBook s bid uid nm em now).2
  | .ret bid uid today => (returnBook s bid uid today).2

/-- The store right after Start.py created the empty tables. -/
def initState : LibraryState := ⟨[], [], []⟩

/-- States reachable from the empty store by menu actions. -/
inductive Reachable : LibraryState → Prop where
  | init : Reachable initState
  | step {s : LibraryState} (op : Op) : Reachable s → Reachable (applyOp s op)

/-! ## The inductive invariant of reachable stores -/

/-- The inductive invariant maintained by the four operations: primary
keys are unique, loans reference existing books and users, an available
book has no holder and no open loan, a non-available book has exactly
one open loan whose borrower is its holder, and each user row counts its
open loans, never more than 3. -/
structure Inv (s : LibraryState) : Prop where
  booksNodup : (s.books.map Book.id).Nodup
  usersNodup : (s.users.map User.id).Nodup
  loanBook : ∀ l ∈ s.issuedbooks, ∃ b ∈ s.books, b.id = l.book_id
  loanUser : ∀ l ∈ s.issuedbooks, ∃ u ∈ s.users, u.id = l.user_id
  availFree : ∀ b ∈ s.books, b.available = true →
    b.user_id = none ∧ loansFor s b.id = []
  onLoan : ∀ b ∈ s.books, b.available = false →
    ∃ l, b.user_id = some l.user_id ∧ loansFor s b.id = [l]
  counts : ∀ u ∈ s.users,
    u.issued_book_count = ((loansOfUser s u.id).length : Int) ∧
    u.issued_book_count ≤ 3

/-! ## List helper lemmas -/

theorem key_inj {α β : Type} (f : α → β) {l : List α} (h : (l.map f).Nodup)
    {a b : α} (ha : a ∈ l) (hb : b ∈ l) (hf : f a = f b) : a = b := by
  induction l with
  | nil => cases ha
  | cons x xs ih =>
      rw [List.map_cons, List.nodup_cons] at h
      rcases List.mem_cons.mp ha with rfl | ha2
      · rcases List.mem_cons.mp hb with rfl | hb2
        · rfl
        · exact absurd (List.mem_map.mpr ⟨b, hb2, hf.symm⟩) h.1
      · rcases List.mem_cons.mp hb with rfl | hb2
        · exact absurd (List.mem_map.mpr ⟨a, ha2, hf⟩) h.1
        · exact ih h.2 ha2 hb2

theorem map_key_eq {α β : Type} (f : α → α) (key : α → β)
    (hf : ∀ a, key (f a) = key a) (l : List α) :
    (l.map f).map key = l.map key := by
  rw [List.map_map]
  exact List.map_congr_left fun a _ => hf a

theorem filter_after_delete {α : Type} (l : List α) (p q : α → Bool)
    (h : ∀ a, q a = true → p a = false) :
    (l.filter (fun a => !(p a))).filter q = l.filter q := by
  rw [List.filter_filter]
  refine List.filter_congr fun a _ => ?_
  by_cases hq : q a = true
  · simp [hq, h a hq]
  · simp [Bool.eq_false_iff.mpr hq]

theorem filter_delete_self {α : Type} (l : List α) (p : α → Bool) :
    (l.filter (fun a => !(p a))).filter p = [] := by
  rw [List.filter_filter]
  simp

theorem count_split {α : Type} (l : List α) (p q : α → Bool) :
    ((l.filter p).filter q).length +
      ((l.filter (fun a => !(p a))).filter q).length = (l.filter q).length := by
  induction l with
  | nil => rfl
  | cons a t ih =>
      by_cases hp : p a <;> by_cases hq : q a <;>
        simp [List.filter_cons, hp, hq, -List.filter_filter] <;> omega

/-- Projection facts: loansFor and loansOfUser read only the issuedbooks
table, so changing the other tables does not affect them. -/
theorem loansFor_set_books (s : LibraryState) (X : List Book) (bid : Int) :
    loansFor { s with books := X } bid = loansFor s bid := rfl

theorem loansFor_set_users (s : LibraryState) (X : List User) (bid : Int) :
    loansFor { s with users := X } bid = loansFor s bid := rfl

theorem loansOfUser_set_books (s : LibraryState) (X : List Book) (uid : Int) :
    loansOfUser { s with books := X } uid = loansOfUser s uid := rfl

theorem loansOfUser_set_users (s : LibraryState) (X : List User) (uid : Int) :
    loansOfUser { s with users := X } uid = loansOfUser s uid := rfl

theorem checkoutBook_id (bid uid : Int) (bk : Book) :
    (checkoutBook bid uid bk).id = bk.id := by
  unfold checkoutBook; split <;> rfl

theorem checkinBook_id (bid : Int) (bk : Book) :
    (checkinBook bid bk).id = bk.id := by
  unfold checkinBook; split <;> rfl

theorem incrUser_id (uid : Int) (x : User) : (incrUser uid x).id = x.id := by
  unfold incrUser; split <;> rfl

theorem decrUser_id (uid : Int) (x : User) : (decrUser uid x).id = x.id := by
  unfold decrUser; split <;> rfl

/-! ## Inversion lemmas for the row lookups -/

theorem findBook_none {s : LibraryState} {bid : Int} (h : findBook s bid = none) :
    ∀ b ∈ s.books, b.id ≠ bid := by
  intro b hb
  have := List.find?_eq_none.mp h b hb
  simpa using this

theorem findBook_some {s : LibraryState} {bid : Int} {b : Book}
    (h : findBook s bid = some b) : b ∈ s.books ∧ b.id = bid := by
  refine ⟨List.mem_of_find?_eq_some h, ?_⟩
  have := List.find?_some h
  simpa using this

theorem findUser_none {s : LibraryState} {uid : Int} (h : findUser s uid = none) :
    ∀ u ∈ s.users, u.id ≠ uid := by
  intro u hu
  have := List.find?_eq_none.mp h u hu
  simpa using this

theorem findUser_some {s : LibraryState} {uid : Int} {u : User}
    (h : findUser s uid = some u) : u ∈ s.users ∧ u.id = uid := by
  refine ⟨List.mem_of_find?_eq_some h, ?_⟩
  have := List.find?_some h
  simpa using this

/-! ## Invariant preservation -/

/-- Case analysis for a successful registration step. -/
theorem register_cases {s s1 : LibraryState} {uid : Int} {nm em : String}
    (h : register s uid nm em = some s1) :
    ((∃ u, findUser s uid = some u) ∧ s1 = s) ∨
    (findUser s uid = none ∧ s.users.any (fun u => u.email == em) = false ∧
      s1 = { s with users := s.users ++ [⟨uid, nm, em, 0⟩] }) := by
  unfold register at h
  cases hf : findUser s uid with
  | some u =>
      rw [hf] at h
      injection h with h
      exact Or.inl ⟨⟨u, rfl⟩, h.symm⟩
  | none =>
      rw [hf] at h
      by_cases ha : s.users.any (fun u => u.email == em) = true
      · rw [if_pos ha] at h; cases h
      · rw [if_neg ha] at h
        injection h with h
        exact Or.inr ⟨rfl, Bool.not_eq_true _ ▸ ha, h.symm⟩

theorem register_inv {s s1 : LibraryState} {uid : Int} {nm em : String}
    (hs : Inv s) (h : register s uid nm em = some s1) : Inv s1 := by
  rcases register_cases h with ⟨_, rfl⟩ | ⟨hf, _, rfl⟩
  · exact hs
  · have hfresh : ∀ u ∈ s.users, u.id ≠ uid := findUser_none hf
    constructor
    · exact hs.booksNodup
    · rw [List.map_append, List.nodup_append]
      refine ⟨hs.usersNodup, by simp, ?_⟩
      intro x hx hx2
      simp only [List.map_cons, List.map_nil, List.mem_singleton] at hx2
      rcases List.mem_map.mp hx with ⟨u, hu, rfl⟩
      exact hfresh u hu hx2
    · exact hs.loanBook
    · intro l hl
      rcases hs.loanUser l hl with ⟨u, hu, he⟩
      exact ⟨u, List.mem_append_left _ hu, he⟩
    · exact hs.availFree
    · exact hs.onLoan
    · intro u hu
      rcases List.mem_append.mp hu with hu2 | hu2
      · exact hs.counts u hu2
      · rw [List.mem_singleton] at hu2
        subst hu2
        have hnil : loansOfUser s uid = [] := by
          apply List.filter_eq_nil_iff.mpr
          intro l hl
          rcases hs.loanUser l hl with ⟨u2, hu3, he⟩
          simp only [beq_iff_eq]
          intro hlu
          exact hfresh u2 hu3 (he.trans hlu)
        refine ⟨?_, by norm_num⟩
        show (0 : Int) = ((loansOfUser s uid).length : Int)
        rw [hnil]
        rfl

theorem inv_addBook {s : LibraryState} (hs : Inv s) (bid : Int)
    (t a g : String) : Inv (addBook s bid t a g).2 := by
  unfold addBook
  split
  · exact hs
  next hf =>
    have hfresh := findBook_none hf
    have hnoloan : ∀ l ∈ s.issuedbooks, l.book_id ≠ bid := by
      intro l hl he
      rcases hs.loanBook l hl with ⟨b, hb, hid⟩
      exact hfresh b hb (hid.trans he)
    constructor
    · rw [List.map_append, List.nodup_append]
      refine ⟨hs.booksNodup, by simp, ?_⟩
      intro x hx hx2
      simp only [List.map_cons, List.map_nil, List.mem_singleton] at hx2
      rcases List.mem_map.mp hx with ⟨b, hb, rfl⟩
      exact hfresh b hb hx2
    · exact hs.usersNodup
    · intro l hl
      rcases hs.loanBook l hl with ⟨b, hb, hid⟩
      exact ⟨b, List.mem_append_left _ hb, hid⟩
    · exact hs.loanUser
    · intro b hb hav
      rcases List.mem_append.mp hb with hb2 | hb2
      · exact hs.availFree b hb2 hav
      · rw [List.mem_singleton] at hb2
        subst hb2
        refine ⟨rfl, ?_⟩
        apply List.filter_eq_nil_iff.mpr
        intro l hl
        simpa using hnoloan l hl
    · intro b hb hav
      rcases List.mem_append.mp hb with hb2 | hb2
      · exact hs.onLoan b hb2 hav
      · rw [List.mem_singleton] at hb2
        subst hb2
        cases hav
    · exact hs.counts

/-- Deleting a book row that no loan references preserves the invariant. -/
theorem inv_delete_book {s : LibraryState} (hs : Inv s) {bid : Int}
    (hnil : loansFor s bid = []) :
    Inv { s with books := s.books.filter (fun bk => !(bk.id == bid)) } := by
  constructor
  · exact List.Nodup.sublist ((List.filter_sublist _).map _) hs.booksNodup
  · exact hs.usersNodup
  · intro l hl
    rcases hs.loanBook l hl with ⟨b, hb, hid⟩
    refine ⟨b, List.mem_filter.mpr ⟨hb, ?_⟩, hid⟩
    simp only [Bool.not_eq_eq_eq_not, Bool.not_true, beq_eq_false_iff_ne, ne_eq]
    intro he
    have : l ∈ loansFor s bid := by
      apply List.mem_filter.mpr
      exact ⟨hl, by simp [← hid, he]⟩
    rw [hnil] at this
    cases this
  · exact hs.loanUser
  · intro b hb hav
    exact hs.availFree b (List.mem_filter.mp hb).1 hav
  · intro b hb hav
    exact hs.onLoan b (List.mem_filter.mp hb).1 hav
  · exact hs.counts

theorem inv_removeBook {s : LibraryState} (hs : Inv s) (bid : Int) :
    Inv (removeBook s bid).2 := by
  unfold removeBook
  have hemp : (loansFor s bid).isEmpty = true → loansFor s bid = [] := by
    intro h
    exact List.isEmpty_iff.mp h
  split
  · exact hs
  · split
    · split
      · exact hs
      · split
        next h2 => exact inv_delete_book hs (hemp h2)
        · exact hs
    · split
      next h2 => exact inv_delete_book hs (hemp h2)
      · exact hs

/-- The explicit post-state of a successful lend: the three mutation
statements rewrite the book row, append the loan row and bump the count. -/
theorem lendBook_lent_eq {s s1 : LibraryState} {bid uid : Int} {nm em : String}
    {u : User} {b : Book} (now : Nat)
    (hr : register s uid nm em = some s1)
    (hu : findUser s1 uid = some u)
    (hc : ¬ 3 ≤ u.issued_book_count)
    (hb : s1.books.find? (fun bk => bk.id == bid && bk.available) = some b) :
    lendBook s bid uid nm em now =
      (.lent,
        ⟨s1.users.map (incrUser uid),
         s1.books.map (checkoutBook bid uid),
         s1.issuedbooks ++ [⟨bid, b.title, uid, now, now + 15⟩]⟩) := by
  unfold lendBook lendBookCore
  rw [hr]
  show (match findUser s1 uid with
    | none => _
    | some u => _) = _
  rw [hu]
  show (if 3 ≤ u.issued_book_count then _ else _) = _
  rw [if_neg hc]
  show (match s1.books.find? (fun bk => bk.id == bid && bk.available) with
    | none => _
    | some b => _) = _
  rw [hb]
  rfl

/-- Invariant preservation for the successful lend post-state. -/
theorem inv_lend_final {s1 : LibraryState} (hs1 : Inv s1) {bid uid : Int}
    {u : User} {b : Book} (now : Nat)
    (hu : findUser s1 uid = some u)
    (hc : ¬ 3 ≤ u.issued_book_count)
    (hb : s1.books.find? (fun bk => bk.id == bid && bk.available) = some b) :
    Inv ⟨s1.users.map (incrUser uid),
         s1.books.map (checkoutBook bid uid),
         s1.issuedbooks ++ [⟨bid, b.title, uid, now, now + 15⟩]⟩ := by
  have hbmem : b ∈ s1.books := List.mem_of_find?_eq_some hb
  have hbpred := List.find?_some hb
  rw [Bool.and_eq_true, beq_iff_eq] at hbpred
  obtain ⟨hbid, hbav⟩ := hbpred
  have humem : u ∈ s1.users := (findUser_some hu).1
  have huid : u.id = uid := (findUser_some hu).2
  have hnil : loansFor s1 bid = [] := by
    have := (hs1.availFree b hbmem hbav).2
    rwa [hbid] at this
  constructor
  · rw [map_key_eq _ _ (checkoutBook_id bid uid)]
    exact hs1.booksNodup
  · rw [map_key_eq _ _ (incrUser_id uid)]
    exact hs1.usersNodup
  · intro l hl
    rcases List.mem_append.mp hl with hl2 | hl2
    · rcases hs1.loanBook l hl2 with ⟨b2, hb2, hid2⟩
      exact ⟨checkoutBook bid uid b2, List.mem_map.mpr ⟨b2, hb2, rfl⟩,
        (checkoutBook_id bid uid b2).trans hid2⟩
    · rw [List.mem_singleton] at hl2
      subst hl2
      exact ⟨checkoutBook bid uid b, List.mem_map.mpr ⟨b, hbmem, rfl⟩,
        (checkoutBook_id bid uid b).trans hbid⟩
  · intro l hl
    rcases List.mem_append.mp hl with hl2 | hl2
    · rcases hs1.loanUser l hl2 with ⟨u2, hu2, hid2⟩
      exact ⟨incrUser uid u2, List.mem_map.mpr ⟨u2, hu2, rfl⟩,
        (incrUser_id uid u2).trans hid2⟩
    · rw [List.mem_singleton] at hl2
      subst hl2
      exact ⟨incrUser uid u, List.mem_map.mpr ⟨u, humem, rfl⟩,
        (incrUser_id uid u).trans huid⟩
  · intro b2 hb2 hav
    rcases List.mem_map.mp hb2 with ⟨bk, hbk, rfl⟩
    by_cases hid : bk.id = bid
    · exfalso
      unfold checkoutBook at hav
      rw [if_pos hid] at hav
      cases hav
    · unfold checkoutBook at hav ⊢
      rw [if_neg hid] at hav ⊢
      obtain ⟨h1, h2⟩ := hs1.availFree bk hbk hav
      refine ⟨h1, ?_⟩
      show List.filter _ (s1.issuedbooks ++ _) = []
      rw [List.filter_append]
      rw [show s1.issuedbooks.filter (fun l => l.book_id == bk.id) = [] from h2]
      simp [hid, Ne.symm hid]
  · intro b2 hb2 hav
    rcases List.mem_map.mp hb2 with ⟨bk, hbk, rfl⟩
    by_cases hid : bk.id = bid
    · refine ⟨⟨bid, b.title, uid, now, now + 15⟩, ?_, ?_⟩
      · show (checkoutBook bid uid bk).user_id = some uid
        unfold checkoutBook
        rw [if_pos hid]
      · show List.filter (fun l => l.book_id == (checkoutBook bid uid bk).id)
            (s1.issuedbooks ++ [⟨bid, b.title, uid, now, now + 15⟩]) =
            [⟨bid, b.title, uid, now, now + 15⟩]
        rw [checkoutBook_id bid uid bk, List.filter_append]
        have h0 : s1.issuedbooks.filter (fun l => l.book_id == bk.id) = [] := by
          rw [hid]; exact hnil
        rw [h0]
        simp [hid]
    · unfold checkoutBook at hav ⊢
      rw [if_neg hid] at hav ⊢
      rcases hs1.onLoan bk hbk hav with ⟨l, hl1, hl2⟩
      refine ⟨l, hl1, ?_⟩
      show List.filter _ (s1.issuedbooks ++ _) = _
      rw [List.filter_append]
      rw [show s1.issuedbooks.filter (fun l => l.book_id == bk.id) = [l] from hl2]
      simp [hid, Ne.symm hid]
  · intro u2 hu2
    rcases List.mem_map.mp hu2 with ⟨u0, hu0, rfl⟩
    obtain ⟨hcnt, hle⟩ := hs1.counts u0 hu0
    have hcnt2 : u0.issued_book_count =
        ((s1.issuedbooks.filter (fun l => l.user_id == u0.id)).length : Int) := hcnt
    by_cases hid : u0.id = uid
    · have hu0_eq : u0 = u := key_inj User.id hs1.usersNodup hu0 humem (hid.trans huid.symm)
      have hle2 : u0.issued_book_count ≤ 2 := by
        rw [hu0_eq]
        omega
      show (incrUser uid u0).issued_book_count =
          ((List.filter (fun l => l.user_id == (incrUser uid u0).id)
            (s1.issuedbooks ++ [⟨bid, b.title, uid, now, now + 15⟩])).length : Int) ∧
          (incrUser uid u0).issued_book_count ≤ 3
      unfold incrUser
      rw [if_pos hid]
      show u0.issued_book_count + 1 = _ ∧ u0.issued_book_count + 1 ≤ 3
      rw [List.filter_append]
      have hnew : List.filter (fun l => l.user_id == u0.id)
          [(⟨bid, b.title, uid, now, now + 15⟩ : Loan)] =
          [⟨bid, b.title, uid, now, now + 15⟩] := by
        simp [hid]
      rw [hnew, List.length_append]
      refine ⟨?_, by omega⟩
      rw [hcnt2, List.length_singleton]
      push_cast
      ring
    · show (incrUser uid u0).issued_book_count =
          ((List.filter (fun l => l.user_id == (incrUser uid u0).id)
            (s1.issuedbooks ++ [⟨bid, b.title, uid, now, now + 15⟩])).length : Int) ∧
          (incrUser uid u0).issued_book_count ≤ 3
      unfold incrUser
      rw [if_neg hid]
      rw [List.filter_append]
      have hnew : List.filter (fun l => l.user_id == u0.id)
          [(⟨bid, b.title, uid, now, now + 15⟩ : Loan)] = [] := by
        simp
        intro he
        exact absurd he.symm hid
      rw [hnew, List.length_append]
      refine ⟨?_, hle⟩
      rw [hcnt2, List.length_nil]
      push_cast
      ring

theorem inv_lendBook {s : LibraryState} (hs : Inv s) (bid uid : Int)
    (nm em : String) (now : Nat) : Inv (lendBook s bid uid nm em now).2 := by
  unfold lendBook lendBookCore
  split
  · exact hs
  next s1 hr =>
    have hs1 : Inv s1 := register_inv hs hr
    split
    · exact hs1
    next u hu =>
      split
      · exact hs1
      next hcnt =>
        split
        · exact hs1
        next b hb =>
          exact inv_lend_final hs1 now hu hcnt hb

/-- With exactly one loan row for the book, the subquery decrement hits
exactly that borrower. -/
theorem decrementBySubquery_one {s1 : LibraryState} {bid : Int} {l0 : Loan}
    (h : loansFor s1 bid = [l0]) :
    decrementBySubquery s1 bid =
      { s1 with users := s1.users.map (decrUser l0.user_id) } := by
  unfold decrementBySubquery
  rw [h]

/-- The subquery decrement never touches books or loans. -/
theorem decrementBySubquery_issuedbooks (s1 : LibraryState) (bid : Int) :
    (decrementBySubquery s1 bid).issuedbooks = s1.issuedbooks := by
  unfold decrementBySubquery
  split <;> rfl

/-- The explicit post-state of a successful return: the three mutation
statements rewrite the book row, decrement the count of the subquery
user and delete the loan rows of the book. -/
theorem returnBook_ret_eq {s : LibraryState} {bid uid : Int} {b : Book}
    {l0 : Loan} (today : Nat)
    (hb : findBook s bid = some b)
    (ht : pyTruthy b.user_id = true)
    (hl : s.issuedbooks.find? (fun l => l.book_id == bid && l.user_id == uid) = some l0)
    (hone : loansFor s bid = [l0]) :
    returnBook s bid uid today =
      (.returned (if l0.due_date < today then some (calculate_fine today l0.due_date)
          else none),
       ⟨s.users.map (decrUser l0.user_id),
        s.books.map (checkinBook bid),
        s.issuedbooks.filter (fun l => !(l.book_id == bid))⟩) := by
  unfold returnBook
  rw [hb]
  show (if pyTruthy b.user_id then _ else _) = _
  rw [ht]
  show (match s.issuedbooks.find? (fun l => l.book_id == bid && l.user_id == uid) with
    | none => _
    | some l0 => _) = _
  rw [hl]
  show (ReturnResult.returned _, _) = _
  have hone2 : loansFor { s with books := s.books.map (checkinBook bid) } bid = [l0] := by
    rw [loansFor_set_books]
    exact hone
  rw [decrementBySubquery_one hone2]

/-- Invariant preservation for the successful return post-state. -/
theorem inv_ret_final {s : LibraryState} (hs : Inv s) {bid : Int} {l0 : Loan}
    (hone : loansFor s bid = [l0]) :
    Inv ⟨s.users.map (decrUser l0.user_id),
         s.books.map (checkinBook bid),
         s.issuedbooks.filter (fun l => !(l.book_id == bid))⟩ := by
  have hone2 : s.issuedbooks.filter (fun l => l.book_id == bid) = [l0] := hone
  constructor
  · rw [map_key_eq _ _ (checkinBook_id bid)]
    exact hs.booksNodup
  · rw [map_key_eq _ _ (decrUser_id l0.user_id)]
    exact hs.usersNodup
  · intro l hl
    have hl2 := (List.mem_filter.mp hl).1
    rcases hs.loanBook l hl2 with ⟨b2, hb2, hid2⟩
    exact ⟨checkinBook bid b2, List.mem_map.mpr ⟨b2, hb2, rfl⟩,
      (checkinBook_id bid b2).trans hid2⟩
  · intro l hl
    have hl2 := (List.mem_filter.mp hl).1
    rcases hs.loanUser l hl2 with ⟨u2, hu2, hid2⟩
    exact ⟨decrUser l0.user_id u2, List.mem_map.mpr ⟨u2, hu2, rfl⟩,
      (decrUser_id l0.user_id u2).trans hid2⟩
  · intro b2 hb2 hav
    rcases List.mem_map.mp hb2 with ⟨bk, hbk, rfl⟩
    by_cases hid : bk.id = bid
    · constructor
      · show (checkinBook bid bk).user_id = none
        unfold checkinBook
        rw [if_pos hid]
      · show List.filter (fun l => l.book_id == (checkinBook bid bk).id)
            (s.issuedbooks.filter (fun l => !(l.book_id == bid))) = []
        rw [checkinBook_id bid bk, hid]
        exact filter_delete_self _ _
    · unfold checkinBook at hav ⊢
      rw [if_neg hid] at hav ⊢
      obtain ⟨h1, h2⟩ := hs.availFree bk hbk hav
      refine ⟨h1, ?_⟩
      show List.filter (fun l => l.book_id == bk.id)
          (s.issuedbooks.filter (fun l => !(l.book_id == bid))) = []
      rw [filter_after_delete _ _ _ ?hq]
      · exact h2
      case hq =>
        intro a ha
        simp only [beq_iff_eq] at ha
        simp only [beq_eq_false_iff_ne, ne_eq, ha]
        exact hid
  · intro b2 hb2 hav
    rcases List.mem_map.mp hb2 with ⟨bk, hbk, rfl⟩
    by_cases hid : bk.id = bid
    · exfalso
      unfold checkinBook at hav
      rw [if_pos hid] at hav
      cases hav
    · unfold checkinBook at hav ⊢
      rw [if_neg hid] at hav ⊢
      rcases hs.onLoan bk hbk hav with ⟨l, h1, h2⟩
      refine ⟨l, h1, ?_⟩
      show List.filter (fun l => l.book_id == bk.id)
          (s.issuedbooks.filter (fun l => !(l.book_id == bid))) = [l]
      rw [filter_after_delete _ _ _ ?hq2]
      · exact h2
      case hq2 =>
        intro a ha
        simp only [beq_iff_eq] at ha
        simp only [beq_eq_false_iff_ne, ne_eq, ha]
        exact hid
  · intro u2 hu2
    rcases List.mem_map.mp hu2 with ⟨u0, hu0, rfl⟩
    obtain ⟨hcnt, hle⟩ := hs.counts u0 hu0
    have hcnt2 : u0.issued_book_count =
        ((s.issuedbooks.filter (fun l => l.user_id == u0.id)).length : Int) := hcnt
    have hsplit := count_split s.issuedbooks (fun l => l.book_id == bid)
      (fun l => l.user_id == u0.id)
    rw [hone2] at hsplit
    show (decrUser l0.user_id u0).issued_book_count =
        ((List.filter (fun l => l.user_id == (decrUser l0.user_id u0).id)
          (s.issuedbooks.filter (fun l => !(l.book_id == bid)))).length : Int) ∧
        (decrUser l0.user_id u0).issued_book_count ≤ 3
    rw [decrUser_id]
    by_cases hid : u0.id = l0.user_id
    · have hq : List.filter (fun l => l.user_id == u0.id) [l0] = [l0] := by
        simp [hid]
      rw [hq, List.length_singleton] at hsplit
      unfold decrUser
      rw [if_pos hid]
      show u0.issued_book_count - 1 = _ ∧ u0.issued_book_count - 1 ≤ 3
      constructor
      · rw [hcnt2]
        omega
      · omega
    · have hq : List.filter (fun l => l.user_id == u0.id) [l0] = [] := by
        simp
        intro he
        exact absurd he.symm hid
      rw [hq, List.length_nil] at hsplit
      unfold decrUser
      rw [if_neg hid]
      refine ⟨?_, hle⟩
      rw [hcnt2]
      omega

theorem inv_returnBook {s : LibraryState} (hs : Inv s) (bid uid : Int)
    (today : Nat) : Inv (returnBook s bid uid today).2 := by
  cases hb : findBook s bid with
  | none =>
      have heq : returnBook s bid uid today = (.notFound, s) := by
        unfold returnBook
        rw [hb]
      rw [heq]
      exact hs
  | some b =>
      cases ht : pyTruthy b.user_id with
      | false =>
          have heq : returnBook s bid uid today = (.notOnLoan, s) := by
            unfold returnBook
            rw [hb]
            show (if pyTruthy b.user_id then _ else _) = _
            rw [ht]
            rfl
          rw [heq]
          exact hs
      | true =>
          cases hl : s.issuedbooks.find?
              (fun l => l.book_id == bid && l.user_id == uid) with
          | none =>
              have heq : returnBook s bid uid today = (.loanMismatch, s) := by
                unfold returnBook
                rw [hb]
                show (if pyTruthy b.user_id then _ else _) = _
                rw [ht]
                show (match s.issuedbooks.find?
                    (fun l => l.book_id == bid && l.user_id == uid) with
                  | none => _
                  | some l0 => _) = _
                rw [hl]
              rw [heq]
              exact hs
          | some l0 =>
              obtain ⟨hbmem, hbid⟩ := findBook_some hb
              have hbav : b.available = false := by
                cases hav : b.available
                · rfl
                · exfalso
                  have h1 := (hs.availFree b hbmem hav).1
                  rw [h1] at ht
                  cases ht
              rcases hs.onLoan b hbmem hbav with ⟨l1, hu1, hone1⟩
              rw [hbid] at hone1
              have hl0mem : l0 ∈ loansFor s bid := by
                apply List.mem_filter.mpr
                refine ⟨List.mem_of_find?_eq_some hl, ?_⟩
                have := List.find?_some hl
                rw [Bool.and_eq_true] at this
                exact this.1
              rw [hone1, List.mem_singleton] at hl0mem
              subst hl0mem
              have hone0 : loansFor s bid = [l0] := hone1
              rw [returnBook_ret_eq today hb ht hl hone0]
              exact inv_ret_final hs hone0

theorem register_issuedbooks {s s1 : LibraryState} {uid : Int} {nm em : String}
    (h : register s uid nm em = some s1) : s1.issuedbooks = s.issuedbooks := by
  rcases register_cases h with ⟨_, rfl⟩ | ⟨_, _, rfl⟩ <;> rfl

theorem register_books {s s1 : LibraryState} {uid : Int} {nm em : String}
    (h : register s uid nm em = some s1) : s1.books = s.books := by
  rcases register_cases h with ⟨_, rfl⟩ | ⟨_, _, rfl⟩ <;> rfl

/-- The loan table after a return: either untouched (a rejected return)
or with every row of the returned book deleted. -/
theorem returnBook_loans (s : LibraryState) (bid uid : Int) (today : Nat) :
    (returnBook s bid uid today).2.issuedbooks = s.issuedbooks ∨
    (returnBook s bid uid today).2.issuedbooks =
      s.issuedbooks.filter (fun l => !(l.book_id == bid)) := by
  unfold returnBook
  split
  · exact Or.inl rfl
  · split
    · split
      · exact Or.inl rfl
      · right
        show (decrementBySubquery
            { s with books := s.books.map (checkinBook bid) } bid).issuedbooks.filter
            (fun l => !(l.book_id == bid)) =
          s.issuedbooks.filter (fun l => !(l.book_id == bid))
        rw [decrementBySubquery_issuedbooks]
    · exact Or.inl rfl

/-- No operation ever rewrites a loan row in place: a loan row present
before an operation is either still present verbatim afterwards, or the
operation removed every loan row of that book. -/
theorem loan_preserved (t : LibraryState) (op : Op) (l : Loan)
    (hl : l ∈ t.issuedbooks) :
    l ∈ (applyOp t op).issuedbooks ∨
      ∀ l2 ∈ (applyOp t op).issuedbooks, l2.book_id ≠ l.book_id := by
  cases op with
  | add bid ttl a g =>
      left
      show l ∈ (addBook t bid ttl a g).2.issuedbooks
      unfold addBook
      split <;> exact hl
  | remove bid =>
      left
      show l ∈ (removeBook t bid).2.issuedbooks
      unfold removeBook
      split
      · exact hl
      · split
        · split
          · exact hl
          · split
            · exact hl
            · exact hl
        · split
          · exact hl
          · exact hl
  | lend bid uid nm em now =>
      left
      show l ∈ (lendBook t bid uid nm em now).2.issuedbooks
      unfold lendBook lendBookCore
      split
      · exact hl
      next s1 hr =>
        have hfr : s1.issuedbooks = t.issuedbooks := register_issuedbooks hr
        split
        · show l ∈ s1.issuedbooks
          rw [hfr]; exact hl
        next u hu =>
          split
          · show l ∈ s1.issuedbooks
            rw [hfr]; exact hl
          next hc =>
            split
            · show l ∈ s1.issuedbooks
              rw [hfr]; exact hl
            next b hb =>
              show l ∈ s1.issuedbooks ++ [⟨bid, b.title, uid, now, now + 15⟩]
              exact List.mem_append_left _ (by rw [hfr]; exact hl)
  | ret bid uid today =>
      rcases returnBook_loans t bid uid today with hloans | hloans
      · left
        show l ∈ (returnBook t bid uid today).2.issuedbooks
        rw [hloans]; exact hl
      · by_cases hbid : l.book_id = bid
        · right
          intro l2 hl2
          show l2.book_id ≠ l.book_id
          have hl3 : l2 ∈ (returnBook t bid uid today).2.issuedbooks := hl2
          rw [hloans] at hl3
          have := (List.mem_filter.mp hl3).2
          simp only [Bool.not_eq_eq_eq_not, Bool.not_true, beq_eq_false_iff_ne, ne_eq] at this
          rw [hbid]
          exact this
        · left
          show l ∈ (returnBook t bid uid today).2.issuedbooks
          rw [hloans]
          apply List.mem_filter.mpr
          refine ⟨hl, ?_⟩
          simp only [Bool.not_eq_eq_eq_not, Bool.not_true, beq_eq_false_iff_ne, ne_eq]
          exact hbid

theorem inv_init : Inv initState := by
  constructor <;> simp [initState, loansFor, loansOfUser]

/-- Every reachable store satisfies the inductive invariant. -/
theorem reachable_inv {s : LibraryState} (h : Reachable s) : Inv s := by
  induction h with
  | init => exact inv_init
  | step op h ih =>
      cases op with
      | add bid t a g => exact inv_addBook ih bid t a g
      | remove bid => exact inv_removeBook ih bid
      | lend bid uid nm em now => exact inv_lendBook ih bid uid nm em now
      | ret bid uid today => exact inv_returnBook ih bid uid today

/-! ## Concrete stores used by the witnesses and counterexamples -/

/-- The empty store after adding book 1. -/
def sA : LibraryState := applyOp initState (.add 1 "T" "A" "G")

/-- sA after lending book 1 to borrower 7 on day 100. -/
def sL : LibraryState := applyOp sA (.lend 1 7 "N" "n@x.y" 100)

/-- sA after lending book 1 to borrower 0 on day 100; 0 is a legal
numeric input for the user id prompt. -/
def sZ : LibraryState := applyOp sA (.lend 1 0 "N" "n@x.y" 100)

/-! ## The claims -/

/-- C1: in every reachable store state, for every Book row, available is
false exactly when a single open Loan row with the id of that book
exists and the user_id column of the book equals the borrower of that
loan.  Reachability is closed under AddBook, RemoveBook, Lend and
Return, so every operation preserves the property. -/
theorem C1_availability_loan_invariant {s : LibraryState} (hs : Reachable s) :
    ∀ b ∈ s.books,
      b.available = false ↔
        ∃ l, loansFor s b.id = [l] ∧ b.user_id = some l.user_id := by
  intro b hb
  have hinv := reachable_inv hs
  constructor
  · intro hav
    rcases hinv.onLoan b hb hav with ⟨l, h1, h2⟩
    exact ⟨l, h2, h1⟩
  · rintro ⟨l, h1, h2⟩
    cases hav : b.available
    · rfl
    · exfalso
      have h3 := (hinv.availFree b hb hav).2
      rw [h3] at h1
      cases h1

/-- Witness for C1 at the concrete reachable store sL and its single
book row, which is on loan to borrower 7. -/
theorem C1_availability_loan_invariant_witness :
    Reachable sL ∧
    ((⟨1, "T", "A", "G", false, some 7⟩ : Book).available = false ↔
      ∃ l, loansFor sL (⟨1, "T", "A", "G", false, some 7⟩ : Book).id = [l] ∧
        (⟨1, "T", "A", "G", false, some 7⟩ : Book).user_id = some l.user_id) := by
  have hr : Reachable sL := Reachable.step (.lend 1 7 "N" "n@x.y" 100)
    (Reachable.step (.add 1 "T" "A" "G") Reachable.init)
  exact ⟨hr, C1_availability_loan_invariant hr ⟨1, "T", "A", "G", false, some 7⟩
    (by decide)⟩

/-- C2: in every reachable store state, the issued_book_count column of
every Borrower row equals the number of open Loan rows referencing that
borrower and never exceeds 3; every operation preserves this. -/
theorem C2_count_invariant {s : LibraryState} (hs : Reachable s) :
    ∀ u ∈ s.users,
      u.issued_book_count = ((loansOfUser s u.id).length : Int) ∧
      u.issued_book_count ≤ 3 :=
  (reachable_inv hs).counts

/-- Witness for C2 at the concrete reachable store sL and its single
borrower row, who holds one book. -/
theorem C2_count_invariant_witness :
    Reachable sL ∧
    ((⟨7, "N", "n@x.y", 1⟩ : User).issued_book_count =
        ((loansOfUser sL (⟨7, "N", "n@x.y", 1⟩ : User).id).length : Int) ∧
      (⟨7, "N", "n@x.y", 1⟩ : User).issued_book_count ≤ 3) := by
  have hr : Reachable sL := Reachable.step (.lend 1 7 "N" "n@x.y" 100)
    (Reachable.step (.add 1 "T" "A" "G") Reachable.init)
  exact ⟨hr, C2_count_invariant hr ⟨7, "N", "n@x.y", 1⟩ (by decide)⟩

/-- C3: the three mutations of a successful Lend are not applied
atomically.  Starting from a store with registered borrower 7 and
available book 1, a store error on the second mutation statement alone
(the loan INSERT, flag f2 false) leaves the first and third statements
committed: the book row is marked unavailable with holder 7 and the
count of borrower 7 is 1, yet no loan row exists, and the operation
still reports success.  The partial write is not rolled back, because
execute_query commits every statement separately and lend_book ignores
its result. -/
theorem C3_lend_not_atomic :
    lendBookCore ⟨[⟨7, "N", "n@e.c", 0⟩], [⟨1, "T", "A", "G", true, none⟩], []⟩
        1 7 "N" "n@e.c" 100 true false true =
      (.lent, ⟨[⟨7, "N", "n@e.c", 1⟩], [⟨1, "T", "A", "G", false, some 7⟩], []⟩) := by
  decide

/-- C4: for every Return of a book on loan (the existence, holder and
ownership checks pass), the reported fine is absent when the return day
is on or before the due date of the loan, and equals 5 per day late
otherwise; the reported amount (0 when absent) is exactly
max 0 (today minus due date) times 5; and the resulting store does not
depend on the day of return, so the fine is only reported, never written
to the store. -/
theorem C4_fine_reported {s : LibraryState} {bid uid : Int} {b : Book}
    {l0 : Loan} (today today2 : Nat)
    (hb : findBook s bid = some b)
    (ht : pyTruthy b.user_id = true)
    (hl : s.issuedbooks.find? (fun l => l.book_id == bid && l.user_id == uid) = some l0) :
    (returnBook s bid uid today).1 =
      .returned (if l0.due_date < today then some (calculate_fine today l0.due_date)
        else none) ∧
    (if l0.due_date < today then calculate_fine today l0.due_date else 0) =
      max 0 ((today : Int) - (l0.due_date : Int)) * 5 ∧
    (returnBook s bid uid today).2 = (returnBook s bid uid today2).2 := by
  have hred : ∀ t : Nat, returnBook s bid uid t =
      (.returned (if l0.due_date < t then some (calculate_fine t l0.due_date) else none),
       { decrementBySubquery { s with books := s.books.map (checkinBook bid) } bid with
          issuedbooks :=
            (decrementBySubquery { s with books := s.books.map (checkinBook bid) }
              bid).issuedbooks.filter (fun l => !(l.book_id == bid)) }) := by
    intro t
    unfold returnBook
    rw [hb]
    show (if pyTruthy b.user_id then _ else _) = _
    rw [ht]
    show (match s.issuedbooks.find? (fun l => l.book_id == bid && l.user_id == uid) with
      | none => _
      | some l0 => _) = _
    rw [hl]
  refine ⟨?_, ?_, ?_⟩
  · rw [hred today]
  · by_cases hlt : l0.due_date < today
    · rw [if_pos hlt,
        max_eq_right (by omega : (0 : Int) ≤ (today : Int) - (l0.due_date : Int))]
      rfl
    · rw [if_neg hlt,
        max_eq_left (by omega : (today : Int) - (l0.due_date : Int) ≤ 0)]
      ring
  · rw [hred today, hred today2]

/-- Witness for C4 at the concrete store sL: book 1 is due on day 115;
returning on day 118 (3 days late) reports a fine of 15, and the
post-state is the same as for a return on day 110 (in time, no fine). -/
theorem C4_fine_reported_witness :
    (returnBook sL 1 7 118).1 = .returned (some 15) ∧
    (returnBook sL 1 7 118).2 = (returnBook sL 1 7 110).2 := by
  have h := @C4_fine_reported sL 1 7 ⟨1, "T", "A", "G", false, some 7⟩
    ⟨1, "T", 7, 100, 115⟩ 118 110 (by decide) (by decide) (by decide)
  refine ⟨?_, h.2.2⟩
  rw [h.1]
  decide

/-- C5: a Lend whose preconditions all pass (registration succeeded, the
borrower has fewer than 3 open loans, the book exists and is available)
ends with the book row unavailable and held by the borrower, a new Loan
row for the book and borrower whose issue date is the current day, whose
due date is 15 days later and whose title field is a copy of the title
of the book at issue time, and the count of the borrower one greater
than before; and no operation ever rewrites a loan row in place, so the
copied title snapshot is unaffected by later edits. -/
theorem C5_lend_success {s s1 : LibraryState} {bid uid : Int} {nm em : String}
    {u : User} {b : Book} (now : Nat)
    (hr : register s uid nm em = some s1)
    (hu : findUser s1 uid = some u)
    (hc : ¬ 3 ≤ u.issued_book_count)
    (hb : s1.books.find? (fun bk => bk.id == bid && bk.available) = some b) :
    b.available = true ∧
    lendBook s bid uid nm em now =
      (.lent, ⟨s1.users.map (incrUser uid),
               s1.books.map (checkoutBook bid uid),
               s1.issuedbooks ++ [⟨bid, b.title, uid, now, now + 15⟩]⟩) ∧
    (∀ bk ∈ (lendBook s bid uid nm em now).2.books,
        bk.id = bid → bk.available = false ∧ bk.user_id = some uid) ∧
    (⟨bid, b.title, uid, now, now + 15⟩ : Loan) ∈
      (lendBook s bid uid nm em now).2.issuedbooks ∧
    { u with issued_book_count := u.issued_book_count + 1 } ∈
      (lendBook s bid uid nm em now).2.users ∧
    (∀ (t : LibraryState) (op : Op) (l : Loan), l ∈ t.issuedbooks →
        l ∈ (applyOp t op).issuedbooks ∨
          ∀ l2 ∈ (applyOp t op).issuedbooks, l2.book_id ≠ l.book_id) := by
  have heq := lendBook_lent_eq now hr hu hc hb
  have hbpred := List.find?_some hb
  rw [Bool.and_eq_true, beq_iff_eq] at hbpred
  refine ⟨hbpred.2, heq, ?_, ?_, ?_, loan_preserved⟩
  · intro bk hbk hbkid
    rw [heq] at hbk
    rcases List.mem_map.mp hbk with ⟨bk0, hbk0, rfl⟩
    have h0 : bk0.id = bid := by
      rw [← checkoutBook_id bid uid bk0]
      exact hbkid
    unfold checkoutBook
    rw [if_pos h0]
    exact ⟨rfl, rfl⟩
  · rw [heq]
    exact List.mem_append_right _ (List.mem_singleton.mpr rfl)
  · rw [heq]
    refine List.mem_map.mpr ⟨u, (findUser_some hu).1, ?_⟩
    unfold incrUser
    rw [if_pos (findUser_some hu).2]

/-- Witness for C5: lending book 1 of store sA to the fresh borrower 7
on day 100 produces exactly the store sL with the snapshot loan row. -/
theorem C5_lend_success_witness :
    lendBook sA 1 7 "N" "n@x.y" 100 =
      (.lent, ⟨[⟨7, "N", "n@x.y", 1⟩], [⟨1, "T", "A", "G", false, some 7⟩],
               [⟨1, "T", 7, 100, 115⟩]⟩) ∧
    (⟨1, "T", 7, 100, 115⟩ : Loan) ∈ (lendBook sA 1 7 "N" "n@x.y" 100).2.issuedbooks := by
  have h := @C5_lend_success sA
    ⟨[⟨7, "N", "n@x.y", 0⟩], [⟨1, "T", "A", "G", true, none⟩], []⟩
    1 7 "N" "n@x.y" ⟨7, "N", "n@x.y", 0⟩ ⟨1, "T", "A", "G", true, none⟩ 100
    (by decide) (by decide) (by decide) (by decide)
  refine ⟨?_, h.2.2.2.1⟩
  rw [h.2.1]
  decide

/-- C6: a Lend for a borrower that exists with 3 or more open loans
fails with the lending-limit message before the availability check is
ever reached: the failure happens uniformly for every book id, including
books that do not exist or are unavailable, and the store is returned
entirely unchanged. -/
theorem C6_lending_limit {s : LibraryState} {uid : Int} {u : User}
    (hu : findUser s uid = some u) (hc : 3 ≤ u.issued_book_count) :
    ∀ (bid : Int) (nm em : String) (now : Nat),
      lendBook s bid uid nm em now = (.limitExceeded, s) := by
  intro bid nm em now
  unfold lendBook lendBookCore
  have hr : register s uid nm em = some s := by
    unfold register
    rw [hu]
  rw [hr]
  show (match findUser s uid with | none => _ | some u => _) = _
  rw [hu]
  show (if 3 ≤ u.issued_book_count then _ else _) = _
  rw [if_pos hc]

/-- Witness for C6, the scenario of the spec: borrower 9 holds 3 books;
lending the available book 1 to borrower 9 is rejected with the
lending-limit message and no state changes. -/
theorem C6_lending_limit_witness :
    lendBook ⟨[⟨9, "N", "n@a.b", 3⟩], [⟨1, "T", "A", "G", true, none⟩], []⟩
        1 9 "X" "x@a.b" 0 =
      (.limitExceeded,
        ⟨[⟨9, "N", "n@a.b", 3⟩], [⟨1, "T", "A", "G", true, none⟩], []⟩) :=
  @C6_lending_limit ⟨[⟨9, "N", "n@a.b", 3⟩], [⟨1, "T", "A", "G", true, none⟩], []⟩
    9 ⟨9, "N", "n@a.b", 3⟩ (by decide) (by decide) 1 "X" "x@a.b" 0

/-- Counterexample for C7 as stated: lending the nonexistent book 1 to
the previously unknown borrower 7 fails with the unavailability message,
yet the store did change: the borrower row registered in step 1
persists, so the operation does not produce no state change. -/
theorem C7_counterexample :
    lendBook initState 1 7 "Ann" "a@b.c" 0 =
      (.bookUnavailable, ⟨[⟨7, "Ann", "a@b.c", 0⟩], [], []⟩) ∧
    (⟨[⟨7, "Ann", "a@b.c", 0⟩], [], []⟩ : LibraryState) ≠ initState := by
  decide

/-- C7 amended: when the capacity check passes and the book does not
exist or is not available, the Lend fails with the unavailability
message; the books and loans tables are completely unchanged, and the
users table is unchanged except that a borrower registered in step 1
persists. -/
theorem C7_book_unavailable {s s1 : LibraryState} {bid uid : Int}
    {nm em : String} {u : User} (now : Nat)
    (hr : register s uid nm em = some s1)
    (hu : findUser s1 uid = some u)
    (hc : ¬ 3 ≤ u.issued_book_count)
    (hb : s1.books.find? (fun bk => bk.id == bid && bk.available) = none) :
    lendBook s bid uid nm em now = (.bookUnavailable, s1) ∧
    s1.books = s.books ∧ s1.issuedbooks = s.issuedbooks ∧
    (s1.users = s.users ∨ s1.users = s.users ++ [⟨uid, nm, em, 0⟩]) := by
  refine ⟨?_, register_books hr, register_issuedbooks hr, ?_⟩
  · unfold lendBook lendBookCore
    rw [hr]
    show (match findUser s1 uid with | none => _ | some u => _) = _
    rw [hu]
    show (if 3 ≤ u.issued_book_count then _ else _) = _
    rw [if_neg hc]
    show (match s1.books.find? (fun bk => bk.id == bid && bk.available) with
      | none => _ | some b => _) = _
    rw [hb]
  · rcases register_cases hr with ⟨_, rfl⟩ | ⟨_, _, rfl⟩
    · exact Or.inl rfl
    · exact Or.inr rfl

/-- Witness for the amended C7: lending the nonexistent book 2 to the
fresh borrower 8 fails with the unavailability message, with the
registered borrower persisting as the only change. -/
theorem C7_book_unavailable_witness :
    lendBook initState 2 8 "Bea" "b@c.d" 5 =
      (.bookUnavailable, ⟨[⟨8, "Bea", "b@c.d", 0⟩], [], []⟩) :=
  (@C7_book_unavailable initState ⟨[⟨8, "Bea", "b@c.d", 0⟩], [], []⟩ 2 8 "Bea" "b@c.d"
    ⟨8, "Bea", "b@c.d", 0⟩ 5 (by decide) (by decide) (by decide) (by decide)).1

/-- Counterexample for C8 as stated: in the reachable store sZ the book
row 1 exists, its available column is false, and an open loan matches
book 1 and borrower 0, so by the claim no precondition fails and the
return should proceed; yet the code rejects it with the not-on-loan
message and leaves the store unchanged, because the Python truthiness
test treats the holder id 0 like NULL. -/
theorem C8_counterexample :
    findBook sZ 1 = some ⟨1, "T", "A", "G", false, some 0⟩ ∧
    (⟨1, "T", 0, 100, 115⟩ : Loan) ∈ sZ.issuedbooks ∧
    returnBook sZ 1 0 200 = (.notOnLoan, sZ) := by
  decide

/-- C8 amended: Return checks its preconditions in order with the first
failure winning: the not-found rejection when no book row has the id,
then the not-on-loan rejection when the user_id column of the book is
NULL or the integer 0, then the mismatch rejection when no open loan
matches both the book and the borrower; every such rejection returns the
store completely unchanged.  In a reachable store the not-on-loan
condition coincides with the claimed one, available being true, exactly
for the books whose holder column is not the id 0. -/
theorem C8_return_rejections (s : LibraryState) (bid uid : Int) (today : Nat) :
    (findBook s bid = none → returnBook s bid uid today = (.notFound, s)) ∧
    (∀ b, findBook s bid = some b → pyTruthy b.user_id = false →
      returnBook s bid uid today = (.notOnLoan, s)) ∧
    (∀ b, findBook s bid = some b → pyTruthy b.user_id = true →
      s.issuedbooks.find? (fun l => l.book_id == bid && l.user_id == uid) = none →
      returnBook s bid uid today = (.loanMismatch, s)) ∧
    (Reachable s → ∀ b ∈ s.books,
      (pyTruthy b.user_id = false ↔ (b.available = true ∨ b.user_id = some 0))) := by
  refine ⟨?_, ?_, ?_, ?_⟩
  · intro hb
    unfold returnBook
    rw [hb]
  · intro b hb ht
    unfold returnBook
    rw [hb]
    show (if pyTruthy b.user_id then _ else _) = _
    rw [ht]
    rfl
  · intro b hb ht hl
    unfold returnBook
    rw [hb]
    show (if pyTruthy b.user_id then _ else _) = _
    rw [ht]
    show (match s.issuedbooks.find? (fun l => l.book_id == bid && l.user_id == uid) with
      | none => _ | some l0 => _) = _
    rw [hl]
  · intro hs b hbmem
    have hinv := reachable_inv hs
    constructor
    · intro ht
      cases hopt : b.user_id with
      | none =>
          left
          cases hav : b.available
          · exfalso
            rcases hinv.onLoan b hbmem hav with ⟨l, h1, _⟩
            rw [hopt] at h1
            cases h1
          · rfl
      | some n =>
          right
          rw [hopt] at ht
          unfold pyTruthy at ht
          rw [bne_eq_false_iff_eq] at ht
          rw [ht]
    · intro h
      rcases h with hav | h0
      · have h1 := (hinv.availFree b hbmem hav).1
        rw [h1]
        rfl
      · rw [h0]
        rfl

/-- Witness for the amended C8: the three rejections at concrete
stores: unknown book 2 in sZ, book 1 of sZ held by borrower 0, and
book 1 of sL returned by the wrong borrower 9. -/
theorem C8_return_rejections_witness :
    returnBook sZ 2 0 200 = (.notFound, sZ) ∧
    returnBook sZ 1 0 200 = (.notOnLoan, sZ) ∧
    returnBook sL 1 9 200 = (.loanMismatch, sL) :=
  ⟨(C8_return_rejections sZ 2 0 200).1 (by decide),
   (C8_return_rejections sZ 1 0 200).2.1 ⟨1, "T", "A", "G", false, some 0⟩
     (by decide) (by decide),
   (C8_return_rejections sL 1 9 200).2.2.1 ⟨1, "T", "A", "G", false, some 7⟩
     (by decide) (by decide) (by decide)⟩

/-- Counterexample for C9 as stated: in the reachable store sZ, book 1
is on loan (available is false and the holder column is set, to 0), but
remove_book does not fail with the on-loan rejection reporting the
holder: the Python truthiness test lets the holder 0 pass, the DELETE is
attempted, and the store rejects it with a foreign-key error; the
operation ends in a store error with the book unchanged. -/
theorem C9_counterexample :
    findBook sZ 1 = some ⟨1, "T", "A", "G", false, some 0⟩ ∧
    removeBook sZ 1 = (.storeError, sZ) := by
  decide

/-- C9 amended: in every store satisfying the reachable-store invariant,
RemoveBook fails with the not-found rejection when no book row has the
id; fails with the on-loan rejection reporting the current holder when
the holder column is a nonzero id, leaving the book unchanged; when the
holder column holds the id 0 the deletion is attempted instead and
rejected by the store (foreign-key restriction of the loan table),
leaving the book unchanged; and otherwise (holder NULL) deletes exactly
that book row and nothing else. -/
theorem C9_remove_book {s : LibraryState} (hs : Inv s) (bid : Int) :
    (findBook s bid = none → removeBook s bid = (.notFound, s)) ∧
    (∀ b h, findBook s bid = some b → b.user_id = some h → h ≠ 0 →
      removeBook s bid = (.bookOnLoan h, s)) ∧
    (∀ b, findBook s bid = some b → b.user_id = some 0 →
      removeBook s bid = (.storeError, s)) ∧
    (∀ b, findBook s bid = some b → b.user_id = none →
      removeBook s bid =
        (.removed, { s with books := s.books.filter (fun bk => !(bk.id == bid)) })) := by
  refine ⟨?_, ?_, ?_, ?_⟩
  · intro hb
    unfold removeBook
    rw [hb]
  · intro b h hb huid hne
    unfold removeBook
    rw [hb]
    show (match b.user_id with | some h => _ | none => _) = _
    rw [huid]
    show (if h != 0 then _ else _) = _
    rw [if_pos (bne_iff_ne.mpr hne)]
  · intro b hb huid
    obtain ⟨hbmem, hbid⟩ := findBook_some hb
    have hav : b.available = false := by
      cases hav2 : b.available
      · rfl
      · exfalso
        have h1 := (hs.availFree b hbmem hav2).1
        rw [h1] at huid
        cases huid
    rcases hs.onLoan b hbmem hav with ⟨l, _, hone⟩
    rw [hbid] at hone
    have hne : (loansFor s bid).isEmpty = false := by
      rw [hone]
      rfl
    unfold removeBook
    rw [hb]
    show (match b.user_id with | some h => _ | none => _) = _
    rw [huid]
    show (if (0 : Int) != 0 then _ else _) = _
    rw [if_neg (by simp)]
    show (if (loansFor s bid).isEmpty then _ else _) = _
    rw [hne]
    rfl
  · intro b hb huid
    obtain ⟨hbmem, hbid⟩ := findBook_some hb
    have hav : b.available = true := by
      cases hav2 : b.available
      · exfalso
        rcases hs.onLoan b hbmem hav2 with ⟨l, h1, _⟩
        rw [huid] at h1
        cases h1
      · rfl
    have hnil : (loansFor s bid).isEmpty = true := by
      have h2 := (hs.availFree b hbmem hav).2
      rw [hbid] at h2
      rw [h2]
      rfl
    unfold removeBook
    rw [hb]
    show (match b.user_id with | some h => _ | none => _) = _
    rw [huid]
    show (if (loansFor s bid).isEmpty then _ else _) = _
    rw [hnil]
    rfl

/-- Witness for the amended C9 at the reachable stores sZ and sL: the
attempted deletion of the book held by borrower 0 ends in a store
error, and removing the book held by borrower 7 is rejected with the
on-loan message reporting holder 7; both stores are unchanged. -/
theorem C9_remove_book_witness :
    removeBook sZ 1 = (.storeError, sZ) ∧
    removeBook sL 1 = (.bookOnLoan 7, sL) := by
  have hz := reachable_inv (Reachable.step (.lend 1 0 "N" "n@x.y" 100)
    (Reachable.step (.add 1 "T" "A" "G") Reachable.init))
  have hw := reachable_inv (Reachable.step (.lend 1 7 "N" "n@x.y" 100)
    (Reachable.step (.add 1 "T" "A" "G") Reachable.init))
  exact ⟨(C9_remove_book hz 1).2.2.1 ⟨1, "T", "A", "G", false, some 0⟩
      (by decide) (by decide),
    (C9_remove_book hw 1).2.1 ⟨1, "T", "A", "G", false, some 7⟩ 7
      (by decide) (by decide) (by decide)⟩

/-- C10: when a previously unknown borrower with a pattern-valid email
that is not yet registered (so the INSERT succeeds) attempts a Lend that
is then rejected by the capacity check or the availability check, the
Borrower row created in step 1, with the supplied id and name, the
validated email and count 0, persists in the store despite the
rejection: the registration is not rolled back with the failed lend. -/
theorem C10_registration_persists {s : LibraryState} {bid uid : Int}
    {nm em : String} (now : Nat)
    (hfresh : findUser s uid = none)
    (hvalid : emailValid em = true)
    (hfree : s.users.any (fun x => x.email == em) = false)
    (houtcome : (lendBook s bid uid nm em now).1 = .limitExceeded ∨
      (lendBook s bid uid nm em now).1 = .bookUnavailable) :
    (⟨uid, nm, em, 0⟩ : User) ∈ (lendBook s bid uid nm em now).2.users ∧
    emailValid em = true := by
  have hr : register s uid nm em =
      some { s with users := s.users ++ [⟨uid, nm, em, 0⟩] } := by
    unfold register
    rw [hfresh, if_neg (by rw [hfree]; exact Bool.false_ne_true)]
  have hu : findUser { s with users := s.users ++ [⟨uid, nm, em, 0⟩] } uid =
      some ⟨uid, nm, em, 0⟩ := by
    show List.find? (fun x => x.id == uid)
      (s.users ++ [(⟨uid, nm, em, 0⟩ : User)]) = some (⟨uid, nm, em, 0⟩ : User)
    rw [List.find?_append,
      List.find?_eq_none.mpr (fun x hx => by simpa using findUser_none hfresh x hx)]
    simp
  refine ⟨?_, hvalid⟩
  cases hfind : ({ s with users := s.users ++ [⟨uid, nm, em, 0⟩] } :
      LibraryState).books.find? (fun bk => bk.id == bid && bk.available) with
  | none =>
      have heq : lendBook s bid uid nm em now =
          (.bookUnavailable, { s with users := s.users ++ [⟨uid, nm, em, 0⟩] }) := by
        unfold lendBook lendBookCore
        rw [hr]
        show (match findUser { s with users := s.users ++ [⟨uid, nm, em, 0⟩] } uid with
          | none => _ | some u => _) = _
        rw [hu]
        show (if (3 : Int) ≤ (0 : Int) then _ else _) = _
        rw [if_neg (by omega)]
        show (match ({ s with users := s.users ++ [⟨uid, nm, em, 0⟩] } :
            LibraryState).books.find? (fun bk => bk.id == bid && bk.available) with
          | none => _ | some b => _) = _
        rw [hfind]
      rw [heq]
      show (⟨uid, nm, em, 0⟩ : User) ∈ s.users ++ [⟨uid, nm, em, 0⟩]
      exact List.mem_append_right _ (List.mem_singleton.mpr rfl)
  | some b =>
      exfalso
      have heq := lendBook_lent_eq now hr hu
        (by show ¬ (3 : Int) ≤ (0 : Int); omega) hfind
      rcases houtcome with h | h <;> rw [heq] at h <;> cases h

/-- Witness for C10: borrower 7 with a pattern-valid email lends the
unavailable book 1; the lend is rejected but the new borrower row with
count 0 persists. -/
theorem C10_registration_persists_witness :
    (⟨7, "Ann", "ann@mail.com", 0⟩ : User) ∈
      (lendBook ⟨[], [⟨1, "T", "A", "G", false, some 5⟩], []⟩
        1 7 "Ann" "ann@mail.com" 0).2.users ∧
    emailValid "ann@mail.com" = true :=
  @C10_registration_persists ⟨[], [⟨1, "T", "A", "G", false, some 5⟩], []⟩ 1 7
    "Ann" "ann@mail.com" 0 (by decide) (by decide) (by decide) (Or.inr (by decide))

end LMS
